import Mathlib

/-!
# Shallow embedding of the geshuro-api-go user service

This file embeds, in Lean 4, the request-handling core of the Go
repository `geshuro/geshuro-api-go`: the Gin HTTP handlers in
`handlers/handlers.go`, the authorization middleware in
`config/middleware.go`, and the GORM-backed user store declared in
`database/database.go` (model `User`, which embeds `gorm.Model`).

Modelling conventions, each traceable to the source:

* A `User` carries the fields of `database.User`.  Because the Go struct
  embeds `gorm.Model`, every row also carries an auto-assigned integer
  primary key `id` and a soft-delete mark `DeletedAt`; we keep the key as
  `id : Nat` and the mark as `deleted : Bool` (false ⇔ `DeletedAt` null).
* The store is the single `users` table plus the auto-increment counter
  for the primary key.  GORM/SQL behaviour that the handlers rely on is
  embedded explicitly:
  - `First` / `Where(...).First` skip soft-deleted rows (`gorm.Model`
    gives the model soft-delete semantics);
  - `DB.Delete` on a model with `gorm.DeletedAt` performs a soft delete
    (an `UPDATE` setting the mark), not a row removal;
  - the column tag `gorm:"unique"` on `email` makes `AutoMigrate` install
    a unique constraint, so an `INSERT` (`Create`) or `UPDATE` (`Save`)
    that would duplicate an email of *any* row — live or tombstoned —
    fails, which the handlers surface as their 500 branches.
* bcrypt is an external library: hashing is an arbitrary function
  `hash : String → String` and `bcrypt.CompareHashAndPassword` an
  arbitrary `verify : String → String → Bool` (true ⇔ nil error), both
  passed to the handlers as parameters.  `bcrypt.GenerateFromPassword`
  cannot fail at `bcrypt.DefaultCost`, so that error branch is absent.
* Gin's JSON binding (`ShouldBindJSON` with `binding:"..."` tags) is an
  external collaborator; its email-format check is modelled by an
  executable approximation `validEmail`, and the claims are insensitive
  to its exact shape.
* Responses are `status` plus a finite JSON body; the nested
  `gin.H{"id": ..., "email": ..., "name": ..., "role": ...}` summary that
  `Register`, `Login` and `GetProfile` emit is the constructor
  `Val.userObj`, which carries exactly those four fields.
-/

/-- A row of the `users` table: the fields of `database.User` plus the
`gorm.Model` primary key and soft-delete mark. -/
structure User where
  id : Nat
  email : String
  password : String
  name : String
  role : String
  isActive : Bool
  deleted : Bool
deriving Repr, DecidableEq

/-- The persisted store: the `users` table and the auto-increment counter
that GORM keeps for the integer primary key (first assigned id is 1). -/
structure Store where
  users : List User
  nextId : Nat
deriving Repr, DecidableEq

/-- A JSON value occurring in one of this service's response bodies.
`userObj id email name role` is the four-field user summary
`gin.H{"id", "email", "name", "role"}`; `userFull` is a whole serialized
`database.User`; `userList` is the array `GetUsers` returns. -/
inductive Val where
  | str : String → Val
  | num : Nat → Val
  | bool : Bool → Val
  | userObj : Nat → String → String → String → Val
  | userFull : User → Val
  | userList : List User → Val
deriving Repr, DecidableEq

/-- A response body: either a `gin.H` object (a keyed field list), a bare
serialized user (`GetUser`), or a bare user array (`GetUsers`). -/
inductive Body where
  | fields : List (String × Val) → Body
  | user : User → Body
  | users : List User → Body
deriving Repr, DecidableEq

/-- An HTTP response: status code and JSON body. -/
structure Response where
  status : Nat
  body : Body
deriving Repr, DecidableEq

/-- `gin.H{"error": msg}`, the shape of every error response. -/
def errBody (msg : String) : Body :=
  .fields [("error", .str msg)]

/-- `config.AuthMiddleware` (`config/middleware.go:43-62`): reads the
`Authorization` header; rejects 401 `"Token de autorización requerido"`
when it is empty, 401 `"Formato de token inválido"` when
`len(token) < 7 || token[:7] != "Bearer "`, otherwise calls `c.Next()`
(modelled as `none`).  Go slices bytes; over the ASCII literal
`"Bearer "` the byte test and this character test coincide. -/
def AuthMiddleware (token : String) : Option Response :=
  if token = "" then
    some ⟨401, errBody "Token de autorización requerido"⟩
  else if token.length < 7 ∨ token.take 7 ≠ "Bearer " then
    some ⟨401, errBody "Formato de token inválido"⟩
  else
    none

/-- A protected route (`routes.SetupRoutes` puts `/users`, `/users/:id`
and `/profile` behind `config.AuthMiddleware`): if the middleware aborts,
the response is its 401 and the handler never runs; otherwise the
handler `h` runs on the store. -/
def runProtected (h : Store → Response × Store) (token : String)
    (st : Store) : Response × Store :=
  match AuthMiddleware token with
  | some r => (r, st)
  | none => h st

/-! ## Request structs and JSON binding

The three request structs at `handlers/handlers.go:277-291` with their
`binding:"..."` tags.  The binding framework (go-playground/validator,
an external collaborator of the spec) is modelled executably:
`validEmail` approximates its `email` rule — a single `@` with non-empty
local and domain parts — which is all the claims need of it. -/

/-- Approximation of the binding framework's `email` format rule:
exactly one `@`, non-empty on both sides. -/
def validEmail (e : String) : Bool :=
  match e.data.dropWhile (fun c => c != '@') with
  | '@' :: domain =>
    !(e.data.takeWhile (fun c => c != '@')).isEmpty
      && !domain.isEmpty && !domain.contains '@'
  | _ => false

/-- `handlers.RegisterRequest`: email `required,email`, password
`required,min=6`, name `required`. -/
structure RegisterRequest where
  email : String
  password : String
  name : String
deriving Repr, DecidableEq

/-- `ShouldBindJSON` validation of a `RegisterRequest`. -/
def bindRegister (r : RegisterRequest) : Bool :=
  validEmail r.email && decide (6 ≤ r.password.length) && r.name ≠ ""

/-- `handlers.LoginRequest`: email `required,email`, password `required`. -/
structure LoginRequest where
  email : String
  password : String
deriving Repr, DecidableEq

/-- `ShouldBindJSON` validation of a `LoginRequest`. -/
def bindLogin (r : LoginRequest) : Bool :=
  validEmail r.email && r.password ≠ ""

/-- `handlers.UpdateUserRequest`: name unconstrained, email
`omitempty,email` (validated only when non-empty). -/
structure UpdateUserRequest where
  name : String
  email : String
deriving Repr, DecidableEq

/-- `ShouldBindJSON` validation of an `UpdateUserRequest`. -/
def bindUpdate (r : UpdateUserRequest) : Bool :=
  r.email == "" || validEmail r.email

/-! ## Store operations

The GORM calls the handlers make, with the semantics the schema of
`database.go` fixes: soft-deleted rows are invisible to `First`, and the
`gorm:"unique"` tag on `email` (installed by `AutoMigrate`) makes any
write that would duplicate an email of any existing row fail. -/

/-- The rows `First`/`Where(...).First` can see: soft delete hides
tombstoned rows from ordinary queries. -/
def liveRows (st : Store) : List User :=
  st.users.filter (fun u => !u.deleted)

/-- `DB.Where("email = ?", e).First(&u)`: the first live row with this
email, `none` ⇔ `gorm.ErrRecordNotFound`. -/
def firstByEmail (st : Store) (e : String) : Option User :=
  (liveRows st).find? (fun u => u.email == e)

/-- Numeric reading of a path parameter: the value the relational
engine compares the text against the integer primary key with (`none`
for a non-numeric string, which matches no row). -/
def parseId (s : String) : Option Nat :=
  if s.data ≠ [] ∧ s.data.all (fun c => c.isDigit) then
    some (s.data.foldl (fun n c => n * 10 + (c.toNat - 48)) 0)
  else none

/-- `DB.First(&u, idStr)` with the raw path parameter: GORM uses the
string as a primary-key condition; against the integer key it matches
numerically (a non-numeric string matches no row and the handler takes
its error branch). -/
def firstById (st : Store) (idStr : String) : Option User :=
  match parseId idStr with
  | none => none
  | some n => (liveRows st).find? (fun u => u.id == n)

/-- `DB.Create(&u)`: inserts the row with a fresh primary key, or fails
(`Error ≠ nil`) when the unique constraint on `email` is violated by any
existing row, live or tombstoned. -/
def gormCreate (st : Store) (u : User) : Except Unit (Store × User) :=
  if st.users.any (fun v => v.email == u.email) then
    .error ()
  else
    let u' := { u with id := st.nextId }
    .ok (⟨st.users ++ [u'], st.nextId + 1⟩, u')

/-- `DB.Save(&u)` with a non-zero primary key: an `UPDATE` of the row
with `u`'s key, failing when the unique constraint on `email` is
violated by a different row. -/
def gormSave (st : Store) (u : User) : Except Unit Store :=
  if st.users.any (fun v => v.id != u.id && v.email == u.email) then
    .error ()
  else
    .ok ⟨st.users.map (fun v => if v.id == u.id then u else v), st.nextId⟩

/-- `DB.Delete(&u)`: because `database.User` embeds `gorm.Model` (which
carries a `gorm.DeletedAt` field), this is a soft delete — an `UPDATE`
setting the deletion mark on the row with `u`'s key, never a row
removal. -/
def gormDelete (st : Store) (u : User) : Store :=
  ⟨st.users.map (fun v => if v.id == u.id then { v with deleted := true } else v),
   st.nextId⟩

/-! ## Handlers (`handlers/handlers.go`)

Each handler is a function from the store and the (already parsed)
request to a response and the new store.  The generic message of a
failed `ShouldBindJSON` (`err.Error()`, a validator-generated string) is
modelled as the fixed string `"binding error"`; no claim inspects it.
Store calls themselves never fail here except through the unique
constraint, matching §5 of the design: each is a single-row operation
provided atomically by the relational engine. -/

/-- `handlers.Register` (`handlers.go:39-83`).  `hash` is
`bcrypt.GenerateFromPassword` at `bcrypt.DefaultCost` (which cannot
return an error, so that 500 branch is dead). -/
def Register (hash : String → String) (st : Store) (req : RegisterRequest) :
    Response × Store :=
  if bindRegister req then
    match firstByEmail st req.email with
    | some _ => (⟨400, errBody "El email ya está registrado"⟩, st)
    | none =>
      let u : User :=
        { id := 0, email := req.email, password := hash req.password,
          name := req.name, role := "user", isActive := true, deleted := false }
      match gormCreate st u with
      | .error _ => (⟨500, errBody "Error al crear el usuario"⟩, st)
      | .ok (st', u') =>
        (⟨201, .fields [("message", .str "Usuario creado exitosamente"),
                        ("user", .userObj u'.id u'.email u'.name u'.role)]⟩,
         st')
  else
    (⟨400, errBody "binding error"⟩, st)

/-- `handlers.Login` (`handlers.go:95-128`).  `verify h p` is
`bcrypt.CompareHashAndPassword([]byte(h), []byte(p)) == nil`. -/
def Login (verify : String → String → Bool) (st : Store) (req : LoginRequest) :
    Response × Store :=
  if bindLogin req then
    match firstByEmail st req.email with
    | none => (⟨401, errBody "Credenciales inválidas"⟩, st)
    | some u =>
      if verify u.password req.password then
        (⟨200, .fields [("message", .str "Login exitoso"),
                        ("token", .str ("jwt_token_simulado_" ++ toString u.id)),
                        ("user", .userObj u.id u.email u.name u.role)]⟩,
         st)
      else
        (⟨401, errBody "Credenciales inválidas"⟩, st)
  else
    (⟨400, errBody "binding error"⟩, st)

/-- `handlers.GetUsers` (`handlers.go:139-152`): all rows `Find` returns
(live rows), passwords scrubbed to `""`. -/
def GetUsers (st : Store) : Response × Store :=
  (⟨200, .users ((liveRows st).map (fun u => { u with password := "" }))⟩, st)

/-- `handlers.GetUser` (`handlers.go:165-176`). -/
def GetUser (idStr : String) (st : Store) : Response × Store :=
  match firstById st idStr with
  | none => (⟨404, errBody "Usuario no encontrado"⟩, st)
  | some u => (⟨200, .user { u with password := "" }⟩, st)

/-- The two field-copy statements of `handlers.UpdateUser`
(`handlers.go:206-211`): a non-empty request name overwrites `Name`, a
non-empty request email overwrites `Email`, nothing else is touched. -/
def applyUpdate (u : User) (req : UpdateUserRequest) : User :=
  { u with
    name := if req.name ≠ "" then req.name else u.name,
    email := if req.email ≠ "" then req.email else u.email }

/-- `handlers.UpdateUser` (`handlers.go:190-223`): bind, look up, copy
the non-empty request fields over the row, `Save`. -/
def UpdateUser (st : Store) (idStr : String) (req : UpdateUserRequest) :
    Response × Store :=
  if bindUpdate req then
    match firstById st idStr with
    | none => (⟨404, errBody "Usuario no encontrado"⟩, st)
    | some u =>
      let u2 := applyUpdate u req
      match gormSave st u2 with
      | .error _ => (⟨500, errBody "Error al actualizar usuario"⟩, st)
      | .ok st' =>
        (⟨200, .fields [("message", .str "Usuario actualizado exitosamente"),
                        ("user", .userFull { u2 with password := "" })]⟩,
         st')
  else
    (⟨400, errBody "binding error"⟩, st)

/-- `handlers.DeleteUser` (`handlers.go:236-251`): look up (live rows
only), then `DB.Delete` — which, through `gorm.Model`, soft-deletes. -/
def DeleteUser (st : Store) (idStr : String) : Response × Store :=
  match firstById st idStr with
  | none => (⟨404, errBody "Usuario no encontrado"⟩, st)
  | some u =>
    (⟨200, .fields [("message", .str "Usuario eliminado exitosamente")]⟩,
     gormDelete st u)

/-- `handlers.GetProfile` (`handlers.go:262-274`): a hard-coded example
profile, independent of the caller and of the store. -/
def GetProfile (st : Store) : Response × Store :=
  (⟨200, .fields [("message", .str "Perfil del usuario"),
                  ("profile", .userObj 1 "usuario@ejemplo.com" "Usuario Ejemplo" "user")]⟩,
   st)

/-! ## Store invariants and reachability -/

/-- The spec's §3 invariant restricted to what clients can see: the live
(non-tombstoned) records carry pairwise-distinct emails. -/
def liveEmailsUnique (st : Store) : Prop :=
  ((liveRows st).map (fun u => u.email)).Nodup

/-- Well-formedness the schema enforces on the whole table: primary keys
are pairwise distinct, emails are pairwise distinct across all rows
(the `gorm:"unique"` column), and every key is below the auto-increment
counter. -/
def storeWf (st : Store) : Prop :=
  (st.users.map (fun u => u.id)).Nodup
    ∧ (st.users.map (fun u => u.email)).Nodup
    ∧ ∀ u ∈ st.users, u.id < st.nextId

/-- Stores reachable from the empty database (after `AutoMigrate`; GORM
assigns ids from 1) through the service's handlers. -/
inductive Reachable : Store → Prop where
  | init : Reachable ⟨[], 1⟩
  | register (hash : String → String) (req : RegisterRequest) {st : Store} :
      Reachable st → Reachable (Register hash st req).2
  | login (verify : String → String → Bool) (req : LoginRequest) {st : Store} :
      Reachable st → Reachable (Login verify st req).2
  | getUsers {st : Store} : Reachable st → Reachable (GetUsers st).2
  | getUser (idStr : String) {st : Store} :
      Reachable st → Reachable (GetUser idStr st).2
  | updateUser (idStr : String) (req : UpdateUserRequest) {st : Store} :
      Reachable st → Reachable (UpdateUser st idStr req).2
  | deleteUser (idStr : String) {st : Store} :
      Reachable st → Reachable (DeleteUser st idStr).2
  | getProfile {st : Store} : Reachable st → Reachable (GetProfile st).2

/-! ## Helper lemmas -/

theorem liveRows_sublist (st : Store) : List.Sublist (liveRows st) st.users :=
  List.filter_sublist st.users

theorem firstByEmail_eq_none (st : Store) (e : String)
    (h : st.users.any (fun v => v.email == e) = false) :
    firstByEmail st e = none := by
  unfold firstByEmail
  rw [List.find?_eq_none]
  intro x hx
  rw [List.any_eq_false] at h
  exact h x (List.mem_of_mem_filter hx)

theorem gormCreate_cases (st : Store) (u : User) :
    (st.users.any (fun v => v.email == u.email) = true
      ∧ gormCreate st u = .error ())
    ∨ (st.users.any (fun v => v.email == u.email) = false
      ∧ gormCreate st u =
          .ok (⟨st.users ++ [{ u with id := st.nextId }], st.nextId + 1⟩,
               { u with id := st.nextId })) := by
  unfold gormCreate
  by_cases hany : st.users.any (fun v => v.email == u.email) = true
  · exact Or.inl ⟨hany, by rw [if_pos hany]⟩
  · exact Or.inr ⟨Bool.of_not_eq_true hany, by rw [if_neg hany]⟩

theorem gormSave_cases (st : Store) (u : User) :
    (st.users.any (fun v => v.id != u.id && v.email == u.email) = true
      ∧ gormSave st u = .error ())
    ∨ (st.users.any (fun v => v.id != u.id && v.email == u.email) = false
      ∧ gormSave st u =
          .ok ⟨st.users.map (fun v => if v.id == u.id then u else v), st.nextId⟩) := by
  unfold gormSave
  by_cases hany : st.users.any (fun v => v.id != u.id && v.email == u.email) = true
  · exact Or.inl ⟨hany, by rw [if_pos hany]⟩
  · exact Or.inr ⟨Bool.of_not_eq_true hany, by rw [if_neg hany]⟩

theorem nodup_map_iff {α β : Type} (f : α → β) (l : List α) :
    (l.map f).Nodup ↔ l.Pairwise (fun a b => f a ≠ f b) :=
  List.pairwise_map

theorem login_store_eq (verify : String → String → Bool) (st : Store)
    (req : LoginRequest) : (Login verify st req).2 = st := by
  unfold Login
  split
  · split
    · rfl
    · split <;> rfl
  · rfl

theorem getUser_store_eq (idStr : String) (st : Store) :
    (GetUser idStr st).2 = st := by
  unfold GetUser
  split <;> rfl

theorem storeWf_empty : storeWf ⟨[], 1⟩ := by
  refine ⟨by simp, by simp, by simp⟩

theorem storeWf_register (hash : String → String) (req : RegisterRequest)
    {st : Store} (h : storeWf st) : storeWf (Register hash st req).2 := by
  unfold Register
  split
  · split
    · exact h
    · dsimp only
      rcases gormCreate_cases st
          ⟨0, req.email, hash req.password, req.name, "user", true, false⟩ with
        ⟨hany, hc⟩ | ⟨hany, hc⟩
      · rw [hc]; exact h
      · rw [hc]
        dsimp only
        obtain ⟨hid, hem, hlt⟩ := h
        refine ⟨?_, ?_, ?_⟩
        · rw [List.map_append, List.nodup_append]
          refine ⟨hid, by simp, ?_⟩
          intro a ha hb2
          rcases List.mem_map.1 ha with ⟨v, hv, rfl⟩
          have hvlt := hlt v hv
          have hveq : v.id = st.nextId := by simpa using hb2
          omega
        · rw [List.map_append, List.nodup_append]
          refine ⟨hem, by simp, ?_⟩
          intro a ha hb2
          rcases List.mem_map.1 ha with ⟨v, hv, rfl⟩
          rw [List.any_eq_false] at hany
          have hvne := hany v hv
          have hveq : v.email = req.email := by simpa using hb2
          exact hvne (by simp [hveq])
        · intro w hw
          rcases List.mem_append.1 hw with hw | hw
          · exact Nat.lt_succ_of_lt (hlt w hw)
          · rw [List.mem_singleton] at hw
            subst hw
            exact Nat.lt_succ_self _
  · exact h

theorem storeWf_update (idStr : String) (req : UpdateUserRequest)
    {st : Store} (h : storeWf st) : storeWf (UpdateUser st idStr req).2 := by
  unfold UpdateUser
  split
  · split
    · exact h
    · rename_i u _
      dsimp only
      rcases gormSave_cases st (applyUpdate u req) with ⟨hcl, hc⟩ | ⟨hcl, hc⟩
      · rw [hc]; exact h
      · rw [hc]
        dsimp only
        obtain ⟨hid, hem, hlt⟩ := h
        have hptw : ∀ v : User,
            (if v.id == (applyUpdate u req).id then applyUpdate u req else v).id
              = v.id := by
          intro v
          by_cases hvid : (v.id == (applyUpdate u req).id) = true
          · rw [if_pos hvid]
            exact (beq_iff_eq.mp hvid).symm
          · rw [if_neg hvid]
        refine ⟨?_, ?_, ?_⟩
        · have hids :
              (st.users.map (fun v =>
                if v.id == (applyUpdate u req).id then applyUpdate u req else v)).map
                  (fun w => w.id)
                = st.users.map (fun w => w.id) := by
            rw [List.map_map]
            exact List.map_congr_left (fun v _ => hptw v)
          rw [hids]
          exact hid
        · rw [nodup_map_iff, List.pairwise_map]
          rw [List.any_eq_false] at hcl
          have hfact : ∀ v ∈ st.users,
              v.id ≠ (applyUpdate u req).id → v.email ≠ (applyUpdate u req).email := by
            intro v hv hne heq
            exact hcl v hv (by simp [hne, heq])
          have hid' : st.users.Pairwise (fun a b => a.id ≠ b.id) :=
            (nodup_map_iff _ _).1 hid
          have hem' : st.users.Pairwise (fun a b => a.email ≠ b.email) :=
            (nodup_map_iff _ _).1 hem
          refine (hid'.and hem').imp_of_mem ?_
          intro a b ha hb hab
          obtain ⟨haid, haem⟩ := hab
          by_cases ha' : (a.id == (applyUpdate u req).id) = true
          · rw [if_pos ha']
            by_cases hb' : (b.id == (applyUpdate u req).id) = true
            · exact absurd ((beq_iff_eq.mp ha').trans
                (beq_iff_eq.mp hb').symm) haid
            · rw [if_neg hb']
              exact (hfact b hb (by simpa using hb')).symm
          · rw [if_neg ha']
            by_cases hb' : (b.id == (applyUpdate u req).id) = true
            · rw [if_pos hb']
              exact hfact a ha (by simpa using ha')
            · rw [if_neg hb']
              exact haem
        · intro w hw
          rcases List.mem_map.1 hw with ⟨v, hv, rfl⟩
          rw [hptw v]
          exact hlt v hv
  · exact h

theorem storeWf_delete (idStr : String) {st : Store} (h : storeWf st) :
    storeWf (DeleteUser st idStr).2 := by
  unfold DeleteUser
  split
  · exact h
  · rename_i u _
    dsimp only
    unfold gormDelete
    obtain ⟨hid, hem, hlt⟩ := h
    have hptid : ∀ v : User,
        (if v.id == u.id then { v with deleted := true } else v).id = v.id := by
      intro v
      by_cases hvid : (v.id == u.id) = true
      · rw [if_pos hvid]
      · rw [if_neg hvid]
    have hptem : ∀ v : User,
        (if v.id == u.id then { v with deleted := true } else v).email = v.email := by
      intro v
      by_cases hvid : (v.id == u.id) = true
      · rw [if_pos hvid]
      · rw [if_neg hvid]
    refine ⟨?_, ?_, ?_⟩
    · have hids :
          (st.users.map (fun v =>
            if v.id == u.id then { v with deleted := true } else v)).map
              (fun w => w.id)
            = st.users.map (fun w => w.id) := by
        rw [List.map_map]
        exact List.map_congr_left (fun v _ => hptid v)
      rw [hids]
      exact hid
    · have hems :
          (st.users.map (fun v =>
            if v.id == u.id then { v with deleted := true } else v)).map
              (fun w => w.email)
            = st.users.map (fun w => w.email) := by
        rw [List.map_map]
        exact List.map_congr_left (fun v _ => hptem v)
      rw [hems]
      exact hem
    · intro w hw
      rcases List.mem_map.1 hw with ⟨v, hv, rfl⟩
      rw [hptid v]
      exact hlt v hv

/-- Every state the service can reach satisfies the schema-enforced
well-formedness: unique ids, globally unique emails, keys below the
counter. -/
theorem storeWf_reachable {st : Store} (h : Reachable st) : storeWf st := by
  induction h with
  | init => exact storeWf_empty
  | register hash req _ ih => exact storeWf_register hash req ih
  | login verify req _ ih =>
    rw [login_store_eq]
    exact ih
  | getUsers _ ih => exact ih
  | getUser idStr _ ih =>
    rw [getUser_store_eq]
    exact ih
  | updateUser idStr req _ ih => exact storeWf_update idStr req ih
  | deleteUser idStr _ ih => exact storeWf_delete idStr ih
  | getProfile _ ih => exact ih

theorem liveEmailsUnique_of_wf {st : Store} (h : storeWf st) :
    liveEmailsUnique st := by
  unfold liveEmailsUnique
  exact h.2.1.sublist ((liveRows_sublist st).map (fun u => u.email))

/-! ## Concrete stores used by witnesses -/

/-- The registered user of the spec's §8 scenario (bcrypt digests are
opaque strings; any non-plaintext stand-in will do for the witnesses). -/
def uOne : User := ⟨1, "a@b.com", "$2a$10$secret1", "A", "user", true, false⟩

/-- A store holding the single registered user of the spec's §8
scenario. -/
def stOne : Store := ⟨[uOne], 2⟩

/-- A store holding two live users with distinct emails. -/
def stTwo : Store :=
  ⟨[⟨1, "a@b.com", "$2a$10$secret1", "A", "user", true, false⟩,
    ⟨2, "c@d.com", "$2a$10$secret2", "B", "user", true, false⟩], 3⟩

/-! ## Claims -/

/-- C1: for every protected route (handler) and inbound request, the
authorization gate rejects with status 401 and a descriptive message
exactly when the `Authorization` header is empty or does not begin with
the 7-character prefix `"Bearer "`; on rejection the handler is never
invoked (the response and store are independent of it), and any header
of the right shape is admitted and the handler runs. -/
theorem auth_gate_exact (h : Store → Response × Store) (tok : String)
    (st : Store) :
    (tok.length < 7 ∨ tok.take 7 ≠ "Bearer " →
      runProtected h tok st =
        (⟨401, errBody (if tok = "" then "Token de autorización requerido"
                        else "Formato de token inválido")⟩, st))
    ∧ (7 ≤ tok.length ∧ tok.take 7 = "Bearer " →
        runProtected h tok st = h st) := by
  unfold runProtected AuthMiddleware
  by_cases h0 : tok = ""
  · subst h0
    exact ⟨fun _ => by simp, fun hc => absurd hc.1 (by decide)⟩
  · rw [if_neg h0]
    by_cases h1 : tok.length < 7 ∨ tok.take 7 ≠ "Bearer "
    · rw [if_pos h1]
      refine ⟨fun _ => by rw [if_neg h0], fun hc => ?_⟩
      rcases h1 with h1 | h1
      · exact absurd hc.1 (by omega)
      · exact absurd hc.2 h1
    · rw [if_neg h1]
      push_neg at h1
      refine ⟨fun hc => ?_, fun _ => rfl⟩
      rcases hc with hc | hc
      · exact absurd h1.1 (by omega)
      · exact absurd h1.2 hc

theorem auth_gate_exact_witness :
    runProtected GetUsers "Basic x" ⟨[], 1⟩ =
      (⟨401, errBody (if ("Basic x" : String) = "" then "Token de autorización requerido"
                      else "Formato de token inválido")⟩, ⟨[], 1⟩)
    ∧ runProtected GetUsers "Bearer x" ⟨[], 1⟩ = GetUsers ⟨[], 1⟩ :=
  ⟨(auth_gate_exact GetUsers "Basic x" ⟨[], 1⟩).1 (by decide),
   (auth_gate_exact GetUsers "Bearer x" ⟨[], 1⟩).2 (by decide)⟩

/-- C10: the header consisting of exactly `"Bearer "` — the prefix with
an empty token — is admitted by the gate, and the protected handler
executes. -/
theorem bearer_alone_admitted (h : Store → Response × Store) (st : Store) :
    AuthMiddleware "Bearer " = none ∧ runProtected h "Bearer " st = h st := by
  have hm : AuthMiddleware "Bearer " = none := by decide
  exact ⟨hm, by unfold runProtected; rw [hm]⟩

/-- C9: every admitted request to the profile operation gets the same
fixed placeholder record (id 1, `usuario@ejemplo.com`,
`Usuario Ejemplo`, role `user`), whatever bearer token was presented
and whatever the store contains. -/
theorem profile_placeholder (tok : String) (st : Store)
    (hadm : AuthMiddleware tok = none) :
    runProtected GetProfile tok st =
      (⟨200, .fields [("message", .str "Perfil del usuario"),
                      ("profile", .userObj 1 "usuario@ejemplo.com" "Usuario Ejemplo" "user")]⟩,
       st) := by
  unfold runProtected
  rw [hadm]
  rfl

theorem profile_placeholder_witness :
    runProtected GetProfile "Bearer zzz" stOne =
      (⟨200, .fields [("message", .str "Perfil del usuario"),
                      ("profile", .userObj 1 "usuario@ejemplo.com" "Usuario Ejemplo" "user")]⟩,
       stOne) :=
  profile_placeholder "Bearer zzz" stOne (by decide)

/-- C2: when a live record with the requested email already exists, a
well-formed registration request for that email fails with the
duplicate-email conflict response (status 400, as the route table maps
conflicts) and returns the store unchanged — the existing record is
untouched and nothing is inserted. -/
theorem register_duplicate_conflict (hash : String → String) (st : Store)
    (req : RegisterRequest) (u : User)
    (hb : bindRegister req = true)
    (hdup : firstByEmail st req.email = some u) :
    Register hash st req = (⟨400, errBody "El email ya está registrado"⟩, st) := by
  simp [Register, hb, hdup]

theorem register_duplicate_conflict_witness :
    Register (fun p => "$2a$10$" ++ p) stOne ⟨"a@b.com", "secret2", "B"⟩ =
      (⟨400, errBody "El email ya está registrado"⟩, stOne) :=
  register_duplicate_conflict (fun p => "$2a$10$" ++ p) stOne
    ⟨"a@b.com", "secret2", "B"⟩
    ⟨1, "a@b.com", "$2a$10$secret1", "A", "user", true, false⟩
    (by decide) (by decide)

/-- C3: a login whose email matches no record and a login whose email
matches a record but whose password fails the bcrypt comparison produce
literally the same response — status 401 with the identical generic
message — so the caller cannot tell whether the email exists. -/
theorem login_enumeration_safe (verify : String → String → Bool) (st : Store)
    (r1 r2 : LoginRequest) (u : User)
    (hb1 : bindLogin r1 = true) (hb2 : bindLogin r2 = true)
    (h1 : firstByEmail st r1.email = none)
    (h2 : firstByEmail st r2.email = some u)
    (hv : verify u.password r2.password = false) :
    Login verify st r1 = Login verify st r2
    ∧ Login verify st r1 = (⟨401, errBody "Credenciales inválidas"⟩, st) := by
  have e1 : Login verify st r1 = (⟨401, errBody "Credenciales inválidas"⟩, st) := by
    simp [Login, hb1, h1]
  have e2 : Login verify st r2 = (⟨401, errBody "Credenciales inválidas"⟩, st) := by
    simp [Login, hb2, h2, hv]
  exact ⟨e1.trans e2.symm, e1⟩

/-- The bcrypt comparison used by the witnesses: a digest matches
exactly the password it tags. -/
def verifyW : String → String → Bool := fun h p => h == "$2a$10$" ++ p

theorem login_enumeration_safe_witness :
    Login verifyW stOne ⟨"no@such.com", "whatever"⟩
        = Login verifyW stOne ⟨"a@b.com", "wrong"⟩
    ∧ Login verifyW stOne ⟨"no@such.com", "whatever"⟩
        = (⟨401, errBody "Credenciales inválidas"⟩, stOne) :=
  login_enumeration_safe verifyW stOne ⟨"no@such.com", "whatever"⟩ ⟨"a@b.com", "wrong"⟩
    ⟨1, "a@b.com", "$2a$10$secret1", "A", "user", true, false⟩
    (by decide) (by decide) (by decide) (by decide) (by decide)

/-- C4: a valid registration (binding passes, email fresh in the whole
table) succeeds with 201, appends exactly one record holding the bcrypt
digest of the password (not the plaintext), role `"user"` and
active = true, and the response body carries only the created record's
id, email, name and role. -/
theorem register_success (hash : String → String) (st : Store)
    (req : RegisterRequest)
    (hb : bindRegister req = true)
    (hfresh : st.users.any (fun v => v.email == req.email) = false)
    (hhash : hash req.password ≠ req.password) :
    Register hash st req =
      (⟨201, .fields [("message", .str "Usuario creado exitosamente"),
                      ("user", .userObj st.nextId req.email req.name "user")]⟩,
       ⟨st.users ++ [⟨st.nextId, req.email, hash req.password, req.name, "user", true, false⟩],
        st.nextId + 1⟩)
    ∧ (⟨st.nextId, req.email, hash req.password, req.name, "user", true, false⟩ : User).password
        ≠ req.password := by
  refine ⟨?_, hhash⟩
  have hnone := firstByEmail_eq_none st req.email hfresh
  simp [Register, hb, hnone, gormCreate, hfresh]

theorem register_success_witness :
    Register (fun p => "$2a$10$" ++ p) stOne ⟨"c@d.com", "secret2", "B"⟩ =
      (⟨201, .fields [("message", .str "Usuario creado exitosamente"),
                      ("user", .userObj 2 "c@d.com" "B" "user")]⟩,
       ⟨stOne.users ++ [⟨2, "c@d.com", "$2a$10$secret2", "B", "user", true, false⟩], 3⟩)
    ∧ (⟨(2 : Nat), "c@d.com", "$2a$10$secret2", "B", "user", true, false⟩ : User).password
        ≠ "secret2" :=
  register_success (fun p => "$2a$10$" ++ p) stOne ⟨"c@d.com", "secret2", "B"⟩
    (by decide) (by decide) (by decide)

/-- C8: an id that resolves to no live record makes fetch, well-formed
update, and delete all fail with the same not-found response (404) and
leave the store unchanged. -/
theorem missing_id_not_found (st : Store) (idStr : String)
    (req : UpdateUserRequest)
    (hb : bindUpdate req = true)
    (hmiss : firstById st idStr = none) :
    GetUser idStr st = (⟨404, errBody "Usuario no encontrado"⟩, st)
    ∧ UpdateUser st idStr req = (⟨404, errBody "Usuario no encontrado"⟩, st)
    ∧ DeleteUser st idStr = (⟨404, errBody "Usuario no encontrado"⟩, st) := by
  refine ⟨?_, ?_, ?_⟩
  · simp [GetUser, hmiss]
  · simp [UpdateUser, hb, hmiss]
  · simp [DeleteUser, hmiss]

theorem missing_id_not_found_witness :
    GetUser "999" stOne = (⟨404, errBody "Usuario no encontrado"⟩, stOne)
    ∧ UpdateUser stOne "999" ⟨"N", ""⟩ = (⟨404, errBody "Usuario no encontrado"⟩, stOne)
    ∧ DeleteUser stOne "999" = (⟨404, errBody "Usuario no encontrado"⟩, stOne) :=
  missing_id_not_found stOne "999" ⟨"N", ""⟩ (by decide) (by decide)

/-- C5 counterexample: deleting the only user returns the success
confirmation, yet a record with id 1 is still present in the persisted
store (with the soft-delete mark set) — the removal is not a hard
delete, so the claim as stated is false at this input. -/
theorem delete_not_hard_counterexample :
    (DeleteUser stOne "1").1
        = ⟨200, .fields [("message", .str "Usuario eliminado exitosamente")]⟩
    ∧ (DeleteUser stOne "1").2.users.any (fun u => u.id == 1) = true := by
  exact ⟨by decide, by decide⟩

/-- C5 amended: deleting an existing record returns the success
confirmation and soft-deletes it — the row stays in the store with the
deletion mark set, and every later lookup by that id fails
(not-found). -/
theorem delete_soft_marks (st : Store) (idStr : String) (u : User)
    (hfind : firstById st idStr = some u) :
    DeleteUser st idStr =
      (⟨200, .fields [("message", .str "Usuario eliminado exitosamente")]⟩,
       gormDelete st u)
    ∧ firstById (gormDelete st u) idStr = none := by
  refine ⟨by simp [DeleteUser, hfind], ?_⟩
  unfold firstById at hfind ⊢
  cases hp : parseId idStr with
  | none => rfl
  | some n =>
    rw [hp] at hfind
    have hu : u.id = n := by
      have := List.find?_some hfind
      simpa using this
    rw [List.find?_eq_none]
    intro w hw hwn
    unfold liveRows gormDelete at hw
    rw [List.mem_filter] at hw
    obtain ⟨hw1, hw2⟩ := hw
    rcases List.mem_map.1 hw1 with ⟨v, hv, hfv⟩
    by_cases hvid : (v.id == u.id) = true
    · rw [if_pos hvid] at hfv
      rw [← hfv] at hw2
      simp at hw2
    · rw [if_neg hvid] at hfv
      subst hfv
      have hvn : v.id = n := by simpa using hwn
      exact hvid (by simp [hvn, hu])

theorem delete_soft_marks_witness :
    DeleteUser stOne "1" =
      (⟨200, .fields [("message", .str "Usuario eliminado exitosamente")]⟩,
       gormDelete stOne uOne)
    ∧ firstById (gormDelete stOne uOne) "1" = none :=
  delete_soft_marks stOne "1" uOne (by decide)

/-- C7: updating an existing record copies exactly the supplied
non-empty name/email over the stored row and nothing else — id,
password hash, role and active flag survive untouched, an empty request
field leaves the stored field as it was, and every other record of the
store is unchanged (when the unique-email constraint blocks the save,
the store is returned entirely unchanged). -/
theorem update_frame (st : Store) (idStr : String) (req : UpdateUserRequest)
    (u : User)
    (hb : bindUpdate req = true)
    (hfind : firstById st idStr = some u) :
    (applyUpdate u req).id = u.id
    ∧ (applyUpdate u req).password = u.password
    ∧ (applyUpdate u req).role = u.role
    ∧ (applyUpdate u req).isActive = u.isActive
    ∧ (applyUpdate u req).name = (if req.name ≠ "" then req.name else u.name)
    ∧ (applyUpdate u req).email = (if req.email ≠ "" then req.email else u.email)
    ∧ (UpdateUser st idStr req).2.users =
        (if st.users.any (fun v =>
              v.id != (applyUpdate u req).id && v.email == (applyUpdate u req).email)
         then st.users
         else st.users.map (fun v =>
              if v.id == (applyUpdate u req).id then applyUpdate u req else v)) := by
  refine ⟨rfl, rfl, rfl, rfl, rfl, rfl, ?_⟩
  rcases gormSave_cases st (applyUpdate u req) with ⟨hcl, hc⟩ | ⟨hcl, hc⟩
  · have hres : UpdateUser st idStr req =
        (⟨500, errBody "Error al actualizar usuario"⟩, st) := by
      simp only [UpdateUser, hb, eq_self_iff_true, if_true, hfind, hc]
    rw [hres, if_pos hcl]
  · have hres : UpdateUser st idStr req =
        (⟨200, .fields [("message", .str "Usuario actualizado exitosamente"),
                        ("user", .userFull { applyUpdate u req with password := "" })]⟩,
         ⟨st.users.map (fun v =>
              if v.id == (applyUpdate u req).id then applyUpdate u req else v),
          st.nextId⟩) := by
      simp only [UpdateUser, hb, eq_self_iff_true, if_true, hfind, hc]
    rw [hres, if_neg (by simp [hcl])]

theorem update_frame_witness :
    (applyUpdate uOne ⟨"N", ""⟩).id = uOne.id
    ∧ (applyUpdate uOne ⟨"N", ""⟩).password = uOne.password
    ∧ (applyUpdate uOne ⟨"N", ""⟩).role = uOne.role
    ∧ (applyUpdate uOne ⟨"N", ""⟩).isActive = uOne.isActive
    ∧ (applyUpdate uOne ⟨"N", ""⟩).name = (if ("N" : String) ≠ "" then "N" else uOne.name)
    ∧ (applyUpdate uOne ⟨"N", ""⟩).email = (if ("" : String) ≠ "" then "" else uOne.email)
    ∧ (UpdateUser stOne "1" ⟨"N", ""⟩).2.users =
        (if stOne.users.any (fun v =>
              v.id != (applyUpdate uOne ⟨"N", ""⟩).id
                && v.email == (applyUpdate uOne ⟨"N", ""⟩).email)
         then stOne.users
         else stOne.users.map (fun v =>
              if v.id == (applyUpdate uOne ⟨"N", ""⟩).id then applyUpdate uOne ⟨"N", ""⟩ else v)) :=
  update_frame stOne "1" ⟨"N", ""⟩ uOne (by decide) (by decide)

/-- C6 counterexample: in the canonical two-user state the claim relies
on, the update that would copy user 1's email onto user 2 does not
produce two live records with the same email — the store's unique-email
constraint (declared by the model's `gorm:"unique"` tag) makes the save
fail, the handler answers 500, the store is unchanged, and the live
emails stay pairwise distinct. -/
theorem update_duplicate_email_rejected_counterexample :
    (UpdateUser stTwo "2" ⟨"", "a@b.com"⟩).1
        = ⟨500, errBody "Error al actualizar usuario"⟩
    ∧ (UpdateUser stTwo "2" ⟨"", "a@b.com"⟩).2 = stTwo
    ∧ liveEmailsUnique (UpdateUser stTwo "2" ⟨"", "a@b.com"⟩).2 := by
  refine ⟨by decide, by decide, ?_⟩
  unfold liveEmailsUnique
  decide

/-- C6 amended: the handler indeed performs no uniqueness re-check, but
the store's unique constraint on email stands in its way — from every
reachable state, an update request can never leave two live records
sharing an email (an update that would is rejected by the store and
surfaces as a 500 response). -/
theorem update_preserves_email_uniqueness {st : Store} (h : Reachable st)
    (idStr : String) (req : UpdateUserRequest) :
    liveEmailsUnique (UpdateUser st idStr req).2 :=
  liveEmailsUnique_of_wf (storeWf_update idStr req (storeWf_reachable h))

theorem update_preserves_email_uniqueness_witness :
    liveEmailsUnique
      (UpdateUser
        (Register (fun p => "$2a$10$" ++ p)
          (Register (fun p => "$2a$10$" ++ p) ⟨[], 1⟩ ⟨"a@b.com", "secret1", "A"⟩).2
          ⟨"c@d.com", "secret2", "B"⟩).2
        "2" ⟨"", "a@b.com"⟩).2 :=
  update_preserves_email_uniqueness
    (Reachable.register (fun p => "$2a$10$" ++ p) ⟨"c@d.com", "secret2", "B"⟩
      (Reachable.register (fun p => "$2a$10$" ++ p) ⟨"a@b.com", "secret1", "A"⟩
        Reachable.init))
    "2" ⟨"", "a@b.com"⟩
